import Mathlib

/-!
# NFT Forge — verification of the procedural generative-art core

Shallow embedding of the deterministic art/trait generator in `src/index.ts`
(`hashString`, `seededRandom`, `generateArt`, the five style renderers and
`generateTraits`), together with proofs settling the specification claims.

Modelling conventions:
* JavaScript numbers are IEEE-754 float64.  The PRNG state recurrence
  `seed = (seed * 1103515245 + 12345) & 0x7fffffff` multiplies values up to
  2^31 · 1103515245 ≈ 2^61, far above 2^53, so the multiplication and the
  addition are rounded.  We model this exactly: `rnd53` rounds a natural
  number to the nearest integer representable with a 53-bit significand
  (ties to even), which is precisely what float64 does to integer-valued
  intermediate results in this range.  `& 0x7fffffff` (after `ToInt32`
  truncation, which is the identity modulo 2^32 on these integer-valued
  floats) keeps the low 31 bits, i.e. reduces modulo 2^31.
* The value returned by a draw, `seed / 0x7fffffff`, is modelled as the
  exact rational `state / (2^31 - 1)`.  The final float64 division rounds
  this by a relative 2^-53, which never moves a value across any of the
  thresholds the generator compares against (0.4, 0.5, and the integer
  boundaries of `Math.floor(value * n)` for the n ≤ 20 that occur, at
  31-bit states), so the rational model is extensionally faithful to every
  branch and every index the code computes.  Decimal literals such as
  `0.4` below denote the exact rationals; the float64 literals differ from
  these by < 2^-53 relative, again never crossing a reachable value.
* Geometry arithmetic is exact rational arithmetic.  The Organic renderer
  evaluates `Math.cos`/`Math.sin` at six fixed angles; a blob primitive
  stores the drawn parameters (centre, radius, the six variation factors)
  from which the source derives its bezier outline, keeping the embedding
  executable.
-/

namespace NftForge

/-- Fuel-based bit length: `bitLenAux fuel n` is the number of binary digits
of `n`, provided `n ≤ fuel`.  Structural in the fuel so the kernel can
evaluate it on large literals. -/
def bitLenAux : ℕ → ℕ → ℕ
  | 0, _ => 0
  | fuel + 1, n => if n = 0 then 0 else bitLenAux fuel (n / 2) + 1

/-- Number of binary digits of `n` (0 for 0). -/
def bitLen (n : ℕ) : ℕ := bitLenAux n n

/-- Round a natural number to the nearest integer with a 53-bit significand
(round to nearest, ties to even): this is what float64 arithmetic does to the
integer-valued intermediates of the PRNG recurrence.  Numbers below `2^53`
are exact. -/
def rnd53 (n : ℕ) : ℕ :=
  if n < 2 ^ 53 then n
  else
    if 2 * (n % 2 ^ (bitLen n - 53)) < 2 ^ (bitLen n - 53) then
      n / 2 ^ (bitLen n - 53) * 2 ^ (bitLen n - 53)
    else if 2 ^ (bitLen n - 53) < 2 * (n % 2 ^ (bitLen n - 53)) then
      (n / 2 ^ (bitLen n - 53) + 1) * 2 ^ (bitLen n - 53)
    else if n / 2 ^ (bitLen n - 53) % 2 = 0 then
      n / 2 ^ (bitLen n - 53) * 2 ^ (bitLen n - 53)
    else
      (n / 2 ^ (bitLen n - 53) + 1) * 2 ^ (bitLen n - 53)

/-- One step of the source PRNG
`seed = (seed * 1103515245 + 12345) & 0x7fffffff`, with the float64 rounding
of the two arithmetic operations made explicit. -/
def jsStep (s : ℕ) : ℕ :=
  rnd53 (rnd53 (s * 1103515245) + 12345) % 2 ^ 31

/-- One draw of the closure returned by `seededRandom`: the value
`seed / 0x7fffffff` (as an exact rational) together with the updated state. -/
def next (s : ℕ) : ℚ × ℕ :=
  ((jsStep s : ℚ) / (2 ^ 31 - 1), jsStep s)

/-- State after `n` draws of the sequence seeded with digest `d`. -/
def nthState (d : ℕ) : ℕ → ℕ
  | 0 => d
  | n + 1 => (next (nthState d n)).2

/-- JavaScript `ToInt32`: the representative of `n` modulo `2^32` lying in
`[-2^31, 2^31)`; this is what `x & x` and the operand conversion of `<<`
compute. -/
def toInt32 (n : ℤ) : ℤ :=
  if n % 2 ^ 32 < 2 ^ 31 then n % 2 ^ 32 else n % 2 ^ 32 - 2 ^ 32

/-- One iteration of the hash loop:
`hash = ((hash << 5) - hash) + charCode; hash = hash & hash`.  The shift acts
on the int32 value (`toInt32 (h * 32)`); the subtraction and addition are
float64-exact at these magnitudes; `hash & hash` is `ToInt32`. -/
def hashStep (h : ℤ) (c : ℕ) : ℤ :=
  toInt32 (toInt32 (h * 32) - h + c)

def hashAux : ℤ → List ℕ → ℤ
  | h, [] => h
  | h, c :: cs => hashAux (hashStep h c) cs

/-- UTF-16 code units of a character, as produced by `charCodeAt`. -/
def charUnits (c : Char) : List ℕ :=
  if c.toNat < 65536 then [c.toNat]
  else [55296 + (c.toNat - 65536) / 1024, 56320 + (c.toNat - 65536) % 1024]

/-- UTF-16 code-unit sequence of a string. -/
def codeUnits (s : String) : List ℕ := s.data.flatMap charUnits

/-- The source `hashString`: polynomial rolling hash over the UTF-16 code
units, 32-bit wrapping, absolute value at the end. -/
def hashString (s : String) : ℕ :=
  (hashAux 0 (codeUnits s)).natAbs

/-! ## Static catalogs -/

def PALETTES : List (List String) :=
  [["#FF6B6B", "#4ECDC4", "#45B7D1", "#96CEB4", "#FFEAA7"],
   ["#2C3E50", "#E74C3C", "#ECF0F1", "#3498DB", "#F39C12"],
   ["#5c73f2", "#00d9ff", "#ff6b35", "#f7931a", "#9b59b6"],
   ["#1a1a2e", "#16213e", "#0f3460", "#e94560", "#533483"],
   ["#00b894", "#00cec9", "#0984e3", "#6c5ce7", "#fd79a8"]]

/-- The `STYLES` catalog: identifier, display name, description. -/
def STYLES : List (String × String × String) :=
  [("geometric", "Geometric", "Sharp angles and bold shapes"),
   ("organic", "Organic", "Flowing curves and natural forms"),
   ("pixel", "Pixel", "Retro 8-bit aesthetic"),
   ("circuit", "Circuit", "Digital circuitry patterns"),
   ("stacks", "Stacks", "Stacks ecosystem themed"),
   ("faces", "Bitcoin Faces", "Unique faces from bitcoinfaces.xyz")]

/-- The Style trait value `STYLES[style]?.name || style` (every catalog name
is a non-empty string, so the `||` fallback fires exactly when the identifier
is not in the catalog). -/
def styleDisplay (style : String) : String :=
  match STYLES.find? (fun e => e.1 == style) with
  | some e => e.2.1
  | none => style

/-- The list-index pattern `Math.floor(r * n)` (`r` a drawn value). -/
def idx (r : ℚ) (n : ℕ) : ℕ := (⌊r * n⌋).toNat

/-! ## Drawable primitives and documents -/

/-- Drawable primitives, carrying the geometry the source computes for each
shape.  A `blob` stores the drawn centre/radius/variation factors from which
the source derives its quadratic-bezier outline via `cos`/`sin` at the six
fixed angles.  `polyline` carries the vertices of a circuit trace (stroke
width 3, opacity 0.8 constant in the source); `btcText` is the centred "₿"
glyph (fill `#f7931a`, opacity 0.9 constant). -/
inductive Prim where
  | triangle (x y s : ℚ) (fill : String) (opacity : ℚ)
  | rectRot (x y w h angle : ℚ) (fill : String) (opacity : ℚ)
  | circle (cx cy r : ℚ) (fill : String) (opacity : ℚ)
  | blob (cx cy r : ℚ) (vars : List ℚ) (fill : String) (opacity : ℚ)
  | pixelRect (x y side : ℚ) (fill : String) (opacity : ℚ)
  | polyline (pts : List (ℚ × ℚ)) (stroke : String)
  | layer (x y w h : ℚ) (fill : String) (opacity : ℚ)
  | btcText (cx cy fontSize : ℚ)
  deriving DecidableEq, Repr

/-- The generated vector document: canvas size, the two background-gradient
stops (colour, stop opacity), and the primitives in paint order. -/
structure Doc where
  size : ℤ
  stop0 : String × ℚ
  stop1 : String × ℚ
  elements : List Prim
  deriving DecidableEq, Repr

/-! ## Style renderers -/

/-- One shape of the Geometric renderer: colour, opacity, position, then a
two-draw branch choosing triangle / rectangle / circle. -/
def geomShape (palette : List String) (size : ℤ) (s : ℕ) : Prim × ℕ :=
  let (rc, s1) := next s
  let color := palette.getD (idx rc palette.length) ""
  let (ro, s2) := next s1
  let opacity := 0.3 + ro * 0.5
  let (rx, s3) := next s2
  let x := rx * (size : ℚ)
  let (ry, s4) := next s3
  let y := ry * (size : ℚ)
  let (rb, s5) := next s4
  if rb > 0.5 then
    let (rs, s6) := next s5
    (Prim.triangle x y (30 + rs * 80) color opacity, s6)
  else
    let (rb2, s6) := next s5
    if rb2 > 0.5 then
      let (rw, s7) := next s6
      let w := 30 + rw * 100
      let (rh, s8) := next s7
      let h := 30 + rh * 100
      let (ra, s9) := next s8
      (Prim.rectRot x y w h (ra * 360) color opacity, s9)
    else
      let (rr, s7) := next s6
      (Prim.circle x y (20 + rr * 60) color opacity, s7)

def geomLoop (palette : List String) (size : ℤ) : ℕ → ℕ → List Prim × ℕ
  | 0, s => ([], s)
  | fuel + 1, s =>
    let (p, s1) := geomShape palette size s
    let (rest, s2) := geomLoop palette size fuel s1
    (p :: rest, s2)

def generateGeometric (palette : List String) (size : ℤ) (s : ℕ) : List Prim × ℕ :=
  let (r0, s1) := next s
  geomLoop palette size (8 + idx r0 12) s1

/-- The six per-blob boundary variation factors `0.7 + rand() * 0.6`. -/
def blobVarsLoop : ℕ → ℕ → List ℚ × ℕ
  | 0, s => ([], s)
  | fuel + 1, s =>
    let (rv, s1) := next s
    let (rest, s2) := blobVarsLoop fuel s1
    ((0.7 + rv * 0.6) :: rest, s2)

def organicBlob (palette : List String) (size : ℤ) (s : ℕ) : Prim × ℕ :=
  let (rc, s1) := next s
  let color := palette.getD (idx rc palette.length) ""
  let (ro, s2) := next s1
  let opacity := 0.4 + ro * 0.4
  let (rx, s3) := next s2
  let cx := rx * (size : ℚ)
  let (ry, s4) := next s3
  let cy := ry * (size : ℚ)
  let (rr, s5) := next s4
  let r := 40 + rr * 100
  let (vars, s6) := blobVarsLoop 6 s5
  (Prim.blob cx cy r vars color opacity, s6)

def organicLoop (palette : List String) (size : ℤ) : ℕ → ℕ → List Prim × ℕ
  | 0, s => ([], s)
  | fuel + 1, s =>
    let (p, s1) := organicBlob palette size s
    let (rest, s2) := organicLoop palette size fuel s1
    (p :: rest, s2)

def generateOrganic (palette : List String) (size : ℤ) (s : ℕ) : List Prim × ℕ :=
  let (r0, s1) := next s
  organicLoop palette size (5 + idx r0 8) s1

/-- One Pixel grid cell: a gate draw `rand() > 0.4`; when it passes, a colour
draw and an opacity draw (`0.6 + rand() * 0.4`) follow and the cell is
painted, otherwise nothing more is drawn. -/
def pixelCell (palette : List String) (x y : ℕ) (s : ℕ) : List Prim × ℕ :=
  if (next s).1 > 0.4 then
    ([Prim.pixelRect (20 * x) (20 * y) 20
        (palette.getD (idx (next (next s).2).1 palette.length) "")
        (0.6 + (next (next (next s).2).2).1 * 0.4)],
     (next (next (next s).2).2).2)
  else
    ([], (next s).2)

/-- The inner `y` loop of the Pixel renderer (`fuel` cells starting at `y`). -/
def pixelRowAux (palette : List String) (x : ℕ) : ℕ → ℕ → ℕ → List Prim × ℕ
  | 0, _, s => ([], s)
  | fuel + 1, y, s =>
    ((pixelCell palette x y s).1
       ++ (pixelRowAux palette x fuel (y + 1) (pixelCell palette x y s).2).1,
     (pixelRowAux palette x fuel (y + 1) (pixelCell palette x y s).2).2)

/-- The outer `x` loop of the Pixel renderer. -/
def pixelColsAux (palette : List String) (g : ℕ) : ℕ → ℕ → ℕ → List Prim × ℕ
  | 0, _, s => ([], s)
  | fuel + 1, x, s =>
    ((pixelRowAux palette x g 0 s).1
       ++ (pixelColsAux palette g fuel (x + 1) (pixelRowAux palette x g 0 s).2).1,
     (pixelColsAux palette g fuel (x + 1) (pixelRowAux palette x g 0 s).2).2)

/-- The Pixel renderer: `grid = size / 20` (float division; the `x < grid`
loop over integers runs `⌈grid⌉` times when `grid` is positive and 0 times
otherwise), x as the outer loop and y as the inner loop. -/
def generatePixel (palette : List String) (size : ℤ) (s : ℕ) : List Prim × ℕ :=
  pixelColsAux palette ⌈(size : ℚ) / 20⌉₊ ⌈(size : ℚ) / 20⌉₊ 0 s

/-- The orthogonal segments of one circuit trace.
`dir = Math.floor(rand() * 4)`; the source `switch` moves only on 0–3 (any
other value would leave the point unchanged, though 0–3 are the only
reachable values). -/
def circSegLoop : ℕ → ℚ × ℚ → ℕ → List (ℚ × ℚ) × (ℚ × ℚ) × ℕ
  | 0, p, s => ([], p, s)
  | fuel + 1, p, s =>
    let (rd, s1) := next s
    let dir := idx rd 4
    let (rl, s2) := next s1
    let len := 30 + rl * 80
    let q : ℚ × ℚ :=
      if dir = 0 then (p.1 + len, p.2)
      else if dir = 1 then (p.1 - len, p.2)
      else if dir = 2 then (p.1, p.2 + len)
      else if dir = 3 then (p.1, p.2 - len)
      else p
    let (rest, pf, s3) := circSegLoop fuel q s2
    (q :: rest, pf, s3)

/-- One circuit trace: colour, start point, `3 + Math.floor(rand() * 5)`
segments, emitted as an axis-aligned polyline plus a radius-6 terminal dot. -/
def circuitTrace (palette : List String) (size : ℤ) (s : ℕ) : List Prim × ℕ :=
  let (rc, s1) := next s
  let color := palette.getD (idx rc palette.length) ""
  let (rx, s2) := next s1
  let x := rx * (size : ℚ)
  let (ry, s3) := next s2
  let y := ry * (size : ℚ)
  let (rn, s4) := next s3
  let (pts, pf, s5) := circSegLoop (3 + idx rn 5) (x, y) s4
  ([Prim.polyline ((x, y) :: pts) color, Prim.circle pf.1 pf.2 6 color 1], s5)

def circuitTraces (palette : List String) (size : ℤ) : ℕ → ℕ → List Prim × ℕ
  | 0, s => ([], s)
  | fuel + 1, s =>
    let (ps, s1) := circuitTrace palette size s
    let (rest, s2) := circuitTraces palette size fuel s1
    (ps ++ rest, s2)

/-- The ten free-floating circuit nodes (opacity 0.9 constant). -/
def circuitNodes (palette : List String) (size : ℤ) : ℕ → ℕ → List Prim × ℕ
  | 0, s => ([], s)
  | fuel + 1, s =>
    let (rc, s1) := next s
    let color := palette.getD (idx rc palette.length) ""
    let (rx, s2) := next s1
    let (ry, s3) := next s2
    let (rr, s4) := next s3
    let (rest, s5) := circuitNodes palette size fuel s4
    (Prim.circle (rx * (size : ℚ)) (ry * (size : ℚ)) (4 + rr * 8) color 0.9 :: rest, s5)

def generateCircuit (palette : List String) (size : ℤ) (s : ℕ) : List Prim × ℕ :=
  let (r0, s1) := next s
  let (ps, s2) := circuitTraces palette size (15 + idx r0 20) s1
  let (ns, s3) := circuitNodes palette size 10 s2
  (ps ++ ns, s3)

/-- The fixed palette the Stacks renderer uses for its own primitives instead
of the drawn catalog palette. -/
def stacksPalette : List String :=
  ["#5c73f2", "#00d9ff", "#f7931a", "#ffffff", "#1a1a2e"]

/-- The five stacked layers: colour `stacksPalette[i % 5]`, y `50 + i*70`,
drawn width/height/x-jitter, opacity `0.7 - i*0.1`. -/
def stacksLayers (size : ℤ) : ℕ → ℕ → ℕ → List Prim × ℕ
  | 0, _, s => ([], s)
  | fuel + 1, i, s =>
    let color := stacksPalette.getD (i % stacksPalette.length) ""
    let (rw, s1) := next s
    let width := 200 + rw * 100
    let (rh, s2) := next s1
    let height := 40 + rh * 20
    let (rx, s3) := next s2
    let x := ((size : ℚ) - width) / 2 + (rx - 0.5) * 40
    let (rest, s4) := stacksLayers size fuel (i + 1) s3
    (Prim.layer x (50 + (i : ℚ) * 70) width height color (0.7 - (i : ℚ) * 0.1) :: rest, s4)

/-- The twenty floating particles: colour, position, radius `2 + rand()*6`,
opacity `0.3 + rand()*0.5`. -/
def stacksParticles (size : ℤ) : ℕ → ℕ → List Prim × ℕ
  | 0, s => ([], s)
  | fuel + 1, s =>
    let (rc, s1) := next s
    let color := stacksPalette.getD (idx rc stacksPalette.length) ""
    let (rx, s2) := next s1
    let (ry, s3) := next s2
    let (rr, s4) := next s3
    let (ro, s5) := next s4
    let (rest, s6) := stacksParticles size fuel s5
    (Prim.circle (rx * (size : ℚ)) (ry * (size : ℚ)) (2 + rr * 6) color (0.3 + ro * 0.5)
       :: rest, s6)

/-- The Stacks renderer: one draw for the glyph size, then layers, the
centred glyph, and particles.  It ignores its `palette` argument (the drawn
catalog palette) in favour of `stacksPalette`, exactly as the source does. -/
def generateStacks (palette : List String) (size : ℤ) (s : ℕ) : List Prim × ℕ :=
  let (rb, s1) := next s
  let btcSize := 60 + rb * 40
  let (layers, s2) := stacksLayers size 5 0 s1
  let (parts, s3) := stacksParticles size 20 s2
  (layers ++ [Prim.btcText ((size : ℚ) / 2) ((size : ℚ) / 2 + 20) btcSize] ++ parts, s3)

/-! ## generateArt and generateTraits -/

/-- The `switch (style)` dispatch: sequential string comparisons with a
silent fallback to the Geometric renderer. -/
def renderStyle (style : String) (palette : List String) (size : ℤ) (s : ℕ) :
    List Prim × ℕ :=
  if style = "geometric" then generateGeometric palette size s
  else if style = "organic" then generateOrganic palette size s
  else if style = "pixel" then generatePixel palette size s
  else if style = "circuit" then generateCircuit palette size s
  else if style = "stacks" then generateStacks palette size s
  else generateGeometric palette size s

/-- The source `generateArt(seed, style, size = 400)`.  Draw order: palette
selection, then a background-colour draw (`bgColor` is computed but never
referenced by the output — it still advances the sequence), then the style
renderer on the state after those two draws.  The SVG wrapper always takes
its two gradient stops from `palette[0]` and `palette[1]` of the drawn
catalog palette, each at stop-opacity 0.8. -/
def generateArt (seed style : String) (size : ℤ := 400) : Doc :=
  let palette := PALETTES.getD (idx (next (hashString seed)).1 PALETTES.length) []
  let bgColor := palette.getD (idx (next (next (hashString seed)).2).1 palette.length) ""
  let s2 := (next (next (hashString seed)).2).2
  { size := size
    stop0 := (palette.getD 0 "", 0.8)
    stop1 := (palette.getD 1 "", 0.8)
    elements := (renderStyle style palette size s2).1 }

def rarities : List String := ["Common", "Uncommon", "Rare", "Epic", "Legendary"]
def backgrounds : List String := ["Sunset", "Midnight", "Ocean", "Forest", "Cosmic"]
def moods : List String := ["Calm", "Energetic", "Mysterious", "Playful", "Bold"]

/-- The source `generateTraits(seed, style)`: a fresh sequence re-seeded from
the same seed; the three draws fall to Rarity, Background and Mood in that
order (the Style and Generation entries draw nothing). -/
def generateTraits (seed style : String) : List (String × String) :=
  let r1 := (next (hashString seed)).1
  let r2 := (next (next (hashString seed)).2).1
  let r3 := (next (next (next (hashString seed)).2).2).1
  [("Style", styleDisplay style),
   ("Rarity", rarities.getD (idx r1 rarities.length) ""),
   ("Background", backgrounds.getD (idx r2 backgrounds.length) ""),
   ("Mood", moods.getD (idx r3 moods.length) ""),
   ("Generation", "Genesis")]

/-! ## Specification-side helper definitions -/

/-- The palette drawn from the catalog for a given seed (the first draw of
the render sequence). -/
def drawnPalette (seed : String) : List String :=
  PALETTES.getD (idx (next (hashString seed)).1 PALETTES.length) []

/-- The cells of a `g × g` pixel grid in source iteration order (x outer,
y inner). -/
def cellSeq (g : ℕ) : List (ℕ × ℕ) :=
  (List.range g).flatMap fun x => (List.range g).map fun y => (x, y)

/-- Left-to-right processing of a list of grid cells, threading the sequence
state: the flattened form of the nested loops of the Pixel renderer. -/
def pixelFold (palette : List String) : List (ℕ × ℕ) → ℕ → List Prim × ℕ
  | [], s => ([], s)
  | c :: cs, s =>
    ((pixelCell palette c.1 c.2 s).1
       ++ (pixelFold palette cs (pixelCell palette c.1 c.2 s).2).1,
     (pixelFold palette cs (pixelCell palette c.1 c.2 s).2).2)

/-! ## Helper lemmas -/

lemma bitLenAux_zero : ∀ fuel, bitLenAux fuel 0 = 0
  | 0 => rfl
  | _ + 1 => rfl

lemma bitLenAux_bounds : ∀ fuel n, n ≤ fuel → n ≠ 0 →
    2 ^ (bitLenAux fuel n - 1) ≤ n ∧ n < 2 ^ bitLenAux fuel n ∧ 1 ≤ bitLenAux fuel n := by
  intro fuel
  induction fuel with
  | zero => intro n hle hne; omega
  | succ f ih =>
    intro n hle hne
    rw [bitLenAux, if_neg hne]
    by_cases h2 : n / 2 = 0
    · have hn1 : n = 1 := by omega
      subst hn1
      simp [h2, bitLenAux_zero]
    · have hrec := ih (n / 2) (by omega) h2
      obtain ⟨hlo, hhi, hone⟩ := hrec
      refine ⟨?_, ?_, by omega⟩
      · have : 2 ^ (bitLenAux f (n / 2) + 1 - 1) = 2 * 2 ^ (bitLenAux f (n / 2) - 1) := by
          rw [Nat.add_sub_cancel]
          calc 2 ^ bitLenAux f (n / 2)
              = 2 ^ (bitLenAux f (n / 2) - 1 + 1) := by rw [Nat.sub_add_cancel hone]
            _ = 2 * 2 ^ (bitLenAux f (n / 2) - 1) := by rw [pow_succ, mul_comm]
        rw [this]
        omega
      · have : 2 ^ (bitLenAux f (n / 2) + 1) = 2 * 2 ^ bitLenAux f (n / 2) := by
          rw [pow_succ, mul_comm]
        rw [this]
        omega

lemma bitLen_lt (n : ℕ) : n < 2 ^ bitLen n := by
  by_cases h : n = 0
  · subst h; simp [bitLen, bitLenAux]
  · exact (bitLenAux_bounds n n le_rfl h).2.1

lemma bitLen_le (n : ℕ) (h : n ≠ 0) : 2 ^ (bitLen n - 1) ≤ n :=
  (bitLenAux_bounds n n le_rfl h).1

lemma bitLen_ge_54 (n : ℕ) (h : 2 ^ 53 ≤ n) : 54 ≤ bitLen n := by
  have h1 : n < 2 ^ bitLen n := bitLen_lt n
  have h2 : (2 : ℕ) ^ 53 < 2 ^ bitLen n := lt_of_le_of_lt h h1
  have := (Nat.pow_lt_pow_iff_right (by norm_num : 1 < 2)).mp h2
  omega

lemma rnd53_small {n : ℕ} (h : n < 2 ^ 53) : rnd53 n = n := by
  rw [rnd53, if_pos h]

lemma rnd53_even {n : ℕ} (h : 2 ^ 53 ≤ n) : 2 ∣ rnd53 n := by
  rw [rnd53, if_neg (not_lt.mpr h)]
  have hk : 1 ≤ bitLen n - 53 := by have := bitLen_ge_54 n h; omega
  have hdvd : 2 ∣ 2 ^ (bitLen n - 53) := dvd_pow_self 2 (by omega)
  split_ifs <;> exact Dvd.dvd.mul_left hdvd _

lemma rnd53_ge {n : ℕ} (h : 2 ^ 53 ≤ n) : 2 ^ 53 ≤ rnd53 n := by
  rw [rnd53, if_neg (not_lt.mpr h)]
  have hb := bitLen_ge_54 n h
  have hlow : 2 ^ (bitLen n - 1) ≤ n := bitLen_le n (by positivity)
  have hq : 2 ^ 52 ≤ n / 2 ^ (bitLen n - 53) := by
    rw [Nat.le_div_iff_mul_le (by positivity)]
    calc 2 ^ 52 * 2 ^ (bitLen n - 53) = 2 ^ (52 + (bitLen n - 53)) := by rw [pow_add]
      _ = 2 ^ (bitLen n - 1) := by congr 1; omega
      _ ≤ n := hlow
  have hbase : 2 ^ 53 ≤ n / 2 ^ (bitLen n - 53) * 2 ^ (bitLen n - 53) := by
    calc (2 : ℕ) ^ 53 = 2 ^ (52 + 1) := by norm_num
      _ ≤ 2 ^ (52 + (bitLen n - 53)) := Nat.pow_le_pow_right (by norm_num) (by omega)
      _ = 2 ^ 52 * 2 ^ (bitLen n - 53) := by rw [pow_add]
      _ ≤ n / 2 ^ (bitLen n - 53) * 2 ^ (bitLen n - 53) := Nat.mul_le_mul_right _ hq
  have hsucc : n / 2 ^ (bitLen n - 53) * 2 ^ (bitLen n - 53)
      ≤ (n / 2 ^ (bitLen n - 53) + 1) * 2 ^ (bitLen n - 53) :=
    Nat.mul_le_mul_right _ (Nat.le_succ _)
  split_ifs <;> omega

lemma jsStep_lt (s : ℕ) : jsStep s < 2 ^ 31 :=
  Nat.mod_lt _ (by positivity)

/-- The unique state satisfying the exact recurrence
`(s * 1103515245 + 12345) ≡ 2^31 - 1 (mod 2^31)` is `230538014`, whose
product lies far above `2^53`; hence no state in the float64-exact region
can step to the all-ones state. -/
lemma exact_not_allones (s : ℕ) (hlt : s * 1103515245 + 12345 < 2 ^ 53) :
    (s * 1103515245 + 12345) % 2 ^ 31 ≠ 2 ^ 31 - 1 := by
  intro h
  have hs : s < 2 ^ 31 := by nlinarith
  have hmod : (s * 1103515245 + 12345) % 2 ^ 31 = (2 ^ 31 - 1) % 2 ^ 31 := by
    rw [h]; norm_num
  have h1 : s * 1103515245 + 12345 ≡ 2147471302 + 12345 [MOD 2 ^ 31] := by
    unfold Nat.ModEq
    rw [hmod]; norm_num
  have h2 : s * 1103515245 ≡ 2147471302 [MOD 2 ^ 31] :=
    Nat.ModEq.add_right_cancel' 12345 h1
  have h3 : s * 1103515245 * 1857678181 ≡ 2147471302 * 1857678181 [MOD 2 ^ 31] :=
    h2.mul_right 1857678181
  have h4 : (1103515245 * 1857678181 : ℕ) ≡ 1 [MOD 2 ^ 31] := by decide
  have h5 : s * (1103515245 * 1857678181) ≡ s * 1 [MOD 2 ^ 31] := h4.mul_left s
  have h6 : s ≡ 2147471302 * 1857678181 [MOD 2 ^ 31] := by
    calc s = s * 1 := (mul_one s).symm
      _ ≡ s * (1103515245 * 1857678181) [MOD 2 ^ 31] := h5.symm
      _ = s * 1103515245 * 1857678181 := by ring
      _ ≡ 2147471302 * 1857678181 [MOD 2 ^ 31] := h3
  have h7 : (2147471302 * 1857678181 : ℕ) ≡ 230538014 [MOD 2 ^ 31] := by decide
  have h8 : s ≡ 230538014 [MOD 2 ^ 31] := h6.trans h7
  have h9 : s = 230538014 := by
    have hx := h8
    unfold Nat.ModEq at hx
    rw [Nat.mod_eq_of_lt hs, Nat.mod_eq_of_lt (by norm_num)] at hx
    exact hx
  rw [h9] at hlt
  norm_num at hlt

/-- No PRNG state ever steps to the all-ones state `2^31 - 1`: in the
float64-exact region the congruence has no solution, and outside it the
rounded result is always even. -/
lemma jsStep_ne_allones (s : ℕ) : jsStep s ≠ 2 ^ 31 - 1 := by
  unfold jsStep
  by_cases hp : s * 1103515245 < 2 ^ 53
  · rw [rnd53_small hp]
    by_cases hq : s * 1103515245 + 12345 < 2 ^ 53
    · rw [rnd53_small hq]
      exact exact_not_allones s hq
    · have heven : 2 ∣ rnd53 (s * 1103515245 + 12345) := rnd53_even (le_of_not_lt hq)
      have hdm : 2 ∣ rnd53 (s * 1103515245 + 12345) % 2 ^ 31 :=
        (Nat.dvd_mod_iff (by norm_num)).mpr heven
      omega
  · have hp2 : 2 ^ 53 ≤ s * 1103515245 := le_of_not_lt hp
    have hge : 2 ^ 53 ≤ rnd53 (s * 1103515245) := rnd53_ge hp2
    have hsum : 2 ^ 53 ≤ rnd53 (s * 1103515245) + 12345 := by omega
    have heven : 2 ∣ rnd53 (rnd53 (s * 1103515245) + 12345) := rnd53_even hsum
    have hdm : 2 ∣ rnd53 (rnd53 (s * 1103515245) + 12345) % 2 ^ 31 :=
      (Nat.dvd_mod_iff (by norm_num)).mpr heven
    omega

lemma jsStep_le (s : ℕ) : jsStep s ≤ 2 ^ 31 - 2 := by
  have h1 := jsStep_lt s
  have h2 := jsStep_ne_allones s
  omega

lemma next_fst_nonneg (s : ℕ) : 0 ≤ (next s).1 := by
  unfold next
  positivity

lemma next_fst_lt_one (s : ℕ) : (next s).1 < 1 := by
  unfold next
  rw [div_lt_one (by norm_num)]
  have h := jsStep_le s
  have : (jsStep s : ℚ) ≤ ((2 ^ 31 - 2 : ℕ) : ℚ) := by exact_mod_cast h
  calc (jsStep s : ℚ) ≤ ((2 ^ 31 - 2 : ℕ) : ℚ) := this
    _ < 2 ^ 31 - 1 := by norm_num

lemma idx_lt_of_lt_one {r : ℚ} (h0 : 0 ≤ r) (h1 : r < 1) {n : ℕ} (hn : 0 < n) :
    idx r n < n := by
  unfold idx
  have hfloor : ⌊r * n⌋ < (n : ℤ) := by
    rw [Int.floor_lt]
    push_cast
    calc r * n < 1 * n := by
          apply mul_lt_mul_of_pos_right h1
          exact_mod_cast hn
      _ = n := one_mul _
  omega

lemma toInt32_emod (n : ℤ) : toInt32 n % 2 ^ 32 = n % 2 ^ 32 := by
  unfold toInt32
  split_ifs <;> omega

lemma toInt32_bounds (n : ℤ) : -2 ^ 31 ≤ toInt32 n ∧ toInt32 n < 2 ^ 31 := by
  unfold toInt32
  have h1 : 0 ≤ n % 2 ^ 32 := Int.emod_nonneg n (by norm_num)
  have h2 : n % 2 ^ 32 < 2 ^ 32 := Int.emod_lt_of_pos n (by norm_num)
  split_ifs <;> omega

lemma renderStyle_default (y : String) (palette : List String) (size : ℤ) (s : ℕ)
    (h : y ∉ ["geometric", "organic", "pixel", "circuit", "stacks"]) :
    renderStyle y palette size s = renderStyle "geometric" palette size s := by
  simp only [List.mem_cons, List.not_mem_nil, or_false, not_or] at h
  obtain ⟨h1, h2, h3, h4, h5⟩ := h
  unfold renderStyle
  rw [if_neg h1, if_neg h2, if_neg h3, if_neg h4, if_neg h5, if_pos rfl]

lemma pixelFold_append (palette : List String) :
    ∀ (l1 l2 : List (ℕ × ℕ)) (s : ℕ),
      pixelFold palette (l1 ++ l2) s =
        ((pixelFold palette l1 s).1
           ++ (pixelFold palette l2 (pixelFold palette l1 s).2).1,
         (pixelFold palette l2 (pixelFold palette l1 s).2).2) := by
  intro l1
  induction l1 with
  | nil => intro l2 s; rfl
  | cons c cs ih =>
    intro l2 s
    simp only [List.cons_append, pixelFold, List.append_eq, ih, List.append_assoc]

lemma pixelRowAux_eq (palette : List String) (x : ℕ) :
    ∀ fuel y0 s, pixelRowAux palette x fuel y0 s
      = pixelFold palette ((List.range fuel).map fun j => (x, y0 + j)) s := by
  intro fuel
  induction fuel with
  | zero => intro y0 s; rfl
  | succ f ih =>
    intro y0 s
    have hmap : ((List.range (f + 1)).map fun j => (x, y0 + j))
        = (x, y0) :: ((List.range f).map fun j => (x, y0 + 1 + j)) := by
      rw [List.range_succ_eq_map, List.map_cons, List.map_map]
      refine congrArg₂ _ (by simp) ?_
      have hfun : ((fun j => (x, y0 + j)) ∘ Nat.succ) = fun j => (x, y0 + 1 + j) := by
        funext j
        simp [Function.comp]
        omega
      rw [hfun]
    rw [hmap]
    simp only [pixelRowAux, pixelFold, ih (y0 + 1)]

lemma pixelColsAux_eq (palette : List String) (g : ℕ) :
    ∀ fuel x0 s, pixelColsAux palette g fuel x0 s
      = pixelFold palette
          ((List.range fuel).flatMap fun i => (List.range g).map fun y => (x0 + i, y)) s := by
  intro fuel
  induction fuel with
  | zero => intro x0 s; rfl
  | succ f ih =>
    intro x0 s
    have hfun : (fun a : ℕ => (List.range g).map fun y => (x0 + a.succ, y))
        = fun i => (List.range g).map fun y => (x0 + 1 + i, y) := by
      funext a
      have hx : x0 + a.succ = x0 + 1 + a := by omega
      rw [hx]
    have hflat : ((List.range (f + 1)).flatMap fun i => (List.range g).map fun y => (x0 + i, y))
        = ((List.range g).map fun y => (x0, y))
            ++ ((List.range f).flatMap fun i => (List.range g).map fun y => (x0 + 1 + i, y)) := by
      rw [List.range_succ_eq_map, List.flatMap_cons, List.flatMap_map]
      refine congrArg₂ _ (by simp) ?_
      exact congrArg _ hfun
    rw [hflat, pixelFold_append]
    have hrow : pixelRowAux palette x0 g 0 s
        = pixelFold palette ((List.range g).map fun y => (x0, y)) s := by
      rw [pixelRowAux_eq]
      refine congrArg₂ _ (List.map_congr_left ?_) rfl
      intro j _
      simp
    simp only [pixelColsAux, ih (x0 + 1), hrow]

lemma cellSeq_length (g : ℕ) : (cellSeq g).length = g ^ 2 := by
  unfold cellSeq
  rw [List.length_flatMap]
  have hmap : (List.range g).map (List.length ∘ fun x => (List.range g).map fun y => (x, y))
      = (List.range g).map fun _ => g := by
    refine List.map_congr_left ?_
    intro x _
    simp [Function.comp]
  rw [hmap, List.map_const', List.sum_replicate]
  simp [sq]

lemma generatePixel_cellSeq (palette : List String) (s : ℕ) (k : ℤ) (hpos : 0 < k) :
    generatePixel palette (20 * k) s = pixelFold palette (cellSeq k.toNat) s := by
  unfold generatePixel
  have hceil : ⌈((20 * k : ℤ) : ℚ) / 20⌉₊ = k.toNat := by
    push_cast
    rw [mul_comm, mul_div_assoc]
    norm_num
  rw [hceil, pixelColsAux_eq]
  unfold cellSeq
  refine congrArg₂ _ (congrArg₂ _ rfl ?_) rfl
  funext i
  refine List.map_congr_left ?_
  intro y _
  simp

/-! ## Claim theorems

Batteries marks the `Rat` arithmetic operations `@[irreducible]`; the kernel
evaluates them fine, so we restore reducibility locally to let `decide`
compute with exact rationals. -/

attribute [local semireducible] Rat.mul Rat.inv Rat.add Rat.sub Rat.ofScientific

set_option maxRecDepth 8000

/-- C2 (confirmed): for every seed digest and every number of prior draws,
the value returned by a draw of the deterministic sequence lies in the
half-open interval `[0, 1)`: it is always `≥ 0` and always strictly `< 1`.
(Strictness holds because no state ever steps to `2^31 - 1`, by
`jsStep_ne_allones`.) -/
theorem c2_sequence_range (d n : ℕ) :
    0 ≤ (next (nthState d n)).1 ∧ (next (nthState d n)).1 < 1 :=
  ⟨next_fst_nonneg _, next_fst_lt_one _⟩

/-- C3 counterexample: at the 31-bit starting state `8162280` the product
`8162280 * 1103515245 + 12345` exceeds `2^53`, the float64 arithmetic rounds
it, and the register update differs from the exact integer recurrence
(`1159229952` instead of `1159229953`). -/
theorem c3_counterexample :
    jsStep 8162280 ≠ (8162280 * 1103515245 + 12345) % 2 ^ 31
  ∧ jsStep 8162280 = 1159229952
  ∧ (8162280 * 1103515245 + 12345) % 2 ^ 31 = 1159229953 := by
  refine ⟨?_, by decide, by decide⟩
  decide

/-- C3 (corrected): each call updates the register by the recurrence
computed in float64 arithmetic,
`newState = rnd53 (rnd53 (state * 1103515245) + 12345) mod 2^31`; whenever
`state * 1103515245 + 12345 < 2^53` this coincides with the exact integer
recurrence `newState = (state * 1103515245 + 12345) mod 2^31` (above that
bound the two can differ, as the counterexample state shows), and the draw
returns `newState / (2^31-1)`. -/
theorem c3_amended_recurrence (s : ℕ) (h : s * 1103515245 + 12345 < 2 ^ 53) :
    jsStep s = (s * 1103515245 + 12345) % 2 ^ 31
  ∧ (next s).1 = (((s * 1103515245 + 12345) % 2 ^ 31 : ℕ) : ℚ) / (2 ^ 31 - 1) := by
  have h1 : jsStep s = (s * 1103515245 + 12345) % 2 ^ 31 := by
    unfold jsStep
    rw [rnd53_small (show s * 1103515245 < 2 ^ 53 by omega), rnd53_small h]
  refine ⟨h1, ?_⟩
  show (jsStep s : ℚ) / (2 ^ 31 - 1) = _
  rw [h1]

/-- Witness for the amended C3 theorem at the state 5. -/
theorem c3_amended_witness :
    (5 * 1103515245 + 12345 < 2 ^ 53)
  ∧ (jsStep 5 = (5 * 1103515245 + 12345) % 2 ^ 31
     ∧ (next 5).1 = (((5 * 1103515245 + 12345) % 2 ^ 31 : ℕ) : ℚ) / (2 ^ 31 - 1)) :=
  ⟨by decide, c3_amended_recurrence 5 (by decide)⟩

/-- C7 (confirmed): the hash is total over all strings and computes the
polynomial rolling hash `h = h*31 + codeUnit` over the code units of the seed in
32-bit wrapping arithmetic (each iteration is congruent to `31*h + c` modulo
`2^32` and lands back in int32 range), with the absolute value taken at the
end; consequently `hashString "" = 0` and `hashString s ≥ 0` for every
string. -/
theorem c7_hash_recurrence (s : String) (h : ℤ) (c : ℕ) :
    hashString "" = 0
  ∧ 0 ≤ (hashString s : ℤ)
  ∧ hashStep h c ≡ 31 * h + c [ZMOD 2 ^ 32]
  ∧ -2 ^ 31 ≤ hashStep h c
  ∧ hashStep h c < 2 ^ 31
  ∧ hashString s = (hashAux 0 (codeUnits s)).natAbs := by
  refine ⟨rfl, Int.natCast_nonneg _, ?_, (toInt32_bounds _).1, (toInt32_bounds _).2, rfl⟩
  have e1 : toInt32 (h * 32) ≡ h * 32 [ZMOD 2 ^ 32] := toInt32_emod _
  have e2 : toInt32 (h * 32) - h + c ≡ h * 32 - h + c [ZMOD 2 ^ 32] :=
    (e1.sub_right h).add_right c
  have e3 : hashStep h c ≡ toInt32 (h * 32) - h + c [ZMOD 2 ^ 32] := toInt32_emod _
  have e4 : h * 32 - h + (c : ℤ) = 31 * h + c := by ring
  rw [e4] at e2
  exact e3.trans e2

/-- C10 (confirmed): the style argument does not influence any drawn trait
value: for every seed and any two style identifiers the trait lists agree on
entries 2 through 5 (Rarity, Background, Mood, Generation) and on all
trait_type names; only the value of the first (Style) entry may differ. -/
theorem c10_traits_style_independent (s y1 y2 : String) :
    (generateTraits s y1).drop 1 = (generateTraits s y2).drop 1
  ∧ (generateTraits s y1).map Prod.fst = (generateTraits s y2).map Prod.fst :=
  ⟨rfl, rfl⟩

/-- C5 (confirmed): for every seed, positive or not, and every style
identifier outside the recognized renderer set
{geometric, organic, pixel, circuit, stacks}, `generateArt` produces output
identical to `generateArt` with style "geometric": the Geometric renderer is
invoked with the same sequence state. -/
theorem c5_unknown_style_fallback (s : String) (size : ℤ) (y : String)
    (h : y ∉ ["geometric", "organic", "pixel", "circuit", "stacks"]) :
    generateArt s y size = generateArt s "geometric" size := by
  simp only [generateArt]
  rw [renderStyle_default y _ _ _ h]

/-- Witness for C5 at the identifiers "unknown-style" and "faces". -/
theorem c5_unknown_style_witness :
    ("unknown-style" ∉ ["geometric", "organic", "pixel", "circuit", "stacks"]
       ∧ "faces" ∉ ["geometric", "organic", "pixel", "circuit", "stacks"])
  ∧ generateArt "abc" "unknown-style" 400 = generateArt "abc" "geometric" 400
  ∧ generateArt "abc" "faces" 400 = generateArt "abc" "geometric" 400 :=
  ⟨⟨by decide, by decide⟩,
   c5_unknown_style_fallback "abc" 400 "unknown-style" (by decide),
   c5_unknown_style_fallback "abc" 400 "faces" (by decide)⟩

/-- C1 counterexample: `generateArt` with canvas size 0 does not raise —
the source contains no canvas-size check at all — and returns an ordinary
document (background gradient from the drawn palette, no elements since the
pixel grid is empty). -/
theorem c1_counterexample :
    generateArt "a" "pixel" 0 =
      { size := 0
        stop0 := ("#00b894", 0.8)
        stop1 := ("#00cec9", 0.8)
        elements := [] } := by
  decide

/-- C1 (corrected): `generateArt` never raises `InvalidCanvasSize` (or
anything else): it is a total function that, for every seed, every style
identifier and every canvas size — positive, zero or negative — succeeds
and returns a document carrying the requested canvas size. -/
theorem c1_amended_total (seed style : String) (size : ℤ) :
    (generateArt seed style size).size = size := rfl

/-- C4 counterexample: for seed "a" the drawn catalog palette is the Neon
palette, and the gradient stops of the Stacks-style document are its first two
colours, not the first two colours of the Stacks fixed palette override. -/
theorem c4_counterexample :
    (generateArt "a" "stacks" 400).stop0 = ("#00b894", 0.8)
  ∧ (generateArt "a" "stacks" 400).stop1 = ("#00cec9", 0.8)
  ∧ stacksPalette.getD 0 "" = "#5c73f2"
  ∧ stacksPalette.getD 1 "" = "#00d9ff"
  ∧ (generateArt "a" "stacks" 400).stop0.1 ≠ stacksPalette.getD 0 ""
  ∧ (generateArt "a" "stacks" 400).stop1.1 ≠ stacksPalette.getD 1 "" := by
  refine ⟨by decide, by decide, by decide, by decide, by decide, by decide⟩

/-- C4 (corrected): for every seed, every style — including "stacks" — and
every size, the background of the document is a two-stop linear gradient whose
stop colours are the first two entries of the catalog palette drawn for that
render, each stop at 80% opacity; the Stacks fixed palette override affects
only the primitives of that renderer, never the background gradient. -/
theorem c4_amended_gradient (seed y : String) (size : ℤ) :
    (generateArt seed y size).stop0 = ((drawnPalette seed).getD 0 "", 0.8)
  ∧ (generateArt seed y size).stop1 = ((drawnPalette seed).getD 1 "", 0.8)
  ∧ (generateArt seed "stacks" size).stop0 = (generateArt seed "geometric" size).stop0
  ∧ (generateArt seed "stacks" size).stop1 = (generateArt seed "geometric" size).stop1 :=
  ⟨rfl, rfl, rfl, rfl⟩

/-- C9 (confirmed): every list index computed as `Math.floor(next() * m)`
during generation — the palette selection from the 5-entry palette catalog
and the background-colour selection in `generateArt`, the per-primitive
colour selections from the 5-colour palettes in each renderer, and the
rarity/background/mood selections in `generateTraits` — is within the bounds
of the indexed list (all of them have `m = 5`; the theorem covers every
positive length), at every position of the sequence seeded from any seed
string. -/
theorem c9_index_in_bounds (seed : String) (n m : ℕ) (hm : 0 < m) :
    idx (next (nthState (hashString seed) n)).1 m < m :=
  idx_lt_of_lt_one (next_fst_nonneg _) (next_fst_lt_one _) hm

/-- Witness for C9: the palette-catalog lookup of the first draw for seed "a". -/
theorem c9_index_witness :
    0 < PALETTES.length
  ∧ idx (next (nthState (hashString "a") 0)).1 PALETTES.length < PALETTES.length :=
  ⟨by decide, c9_index_in_bounds "a" 0 PALETTES.length (by decide)⟩

/-- C8 (confirmed): for the Pixel style the renderer iterates a grid of
cells of side 20 with x as the outer loop and y as the inner loop,
evaluating exactly `(size/20)^2` candidate cells (the nested loops equal the
fold over `cellSeq`, whose length is `(size/20)^2`); each cell is painted —
one colour draw and one opacity draw in 0.6–1.0 following the gate — exactly
when its gate draw satisfies `next() > 0.4`, and otherwise consumes no
further draws (the state advances by three draws when painted, one draw
otherwise). -/
theorem c8_pixel_grid (palette : List String) (size : ℤ) (s : ℕ) (x y st : ℕ)
    (hdvd : (20 : ℤ) ∣ size) (hpos : 0 < size) :
    generatePixel palette size s = pixelFold palette (cellSeq (size / 20).toNat) s
  ∧ (cellSeq (size / 20).toNat).length = (size / 20).toNat ^ 2
  ∧ ((pixelCell palette x y st).1 = [] ↔ ¬ (next st).1 > 0.4)
  ∧ ((pixelCell palette x y st).2 =
      if (next st).1 > 0.4 then (next (next (next st).2).2).2 else (next st).2)
  ∧ (∃ op, 0.6 ≤ op ∧ op < 1 ∧
      (pixelCell palette x y st).1 =
        if (next st).1 > 0.4 then
          [Prim.pixelRect (20 * x) (20 * y) 20
             (palette.getD (idx (next (next st).2).1 palette.length) "") op]
        else []) := by
  obtain ⟨k, rfl⟩ := hdvd
  have hk : 0 < k := by omega
  have hdiv : (20 * k / 20 : ℤ) = k := by
    rw [Int.mul_ediv_cancel_left _ (by norm_num)]
  refine ⟨?_, cellSeq_length _, ?_, ?_, ?_⟩
  · rw [hdiv]
    exact generatePixel_cellSeq palette s k hk
  · unfold pixelCell
    split_ifs with h
    · simp [h]
    · simp [h]
  · unfold pixelCell
    split_ifs with h <;> rfl
  · refine ⟨0.6 + (next (next (next st).2).2).1 * 0.4, ?_, ?_, ?_⟩
    · have h0 := next_fst_nonneg (next (next st).2).2
      nlinarith
    · have h1 := next_fst_lt_one (next (next st).2).2
      have h0 := next_fst_nonneg (next (next st).2).2
      nlinarith
    · unfold pixelCell
      split_ifs with h <;> rfl

/-- Witness for C8 at the two boundary sizes of the claim, 400 (a 20×20 grid,
400 candidate cells) and 20 (exactly one cell). -/
theorem c8_pixel_grid_witness :
    ((20 : ℤ) ∣ 400 ∧ (0 : ℤ) < 400 ∧ (20 : ℤ) ∣ 20 ∧ (0 : ℤ) < 20)
  ∧ ((cellSeq (400 / 20 : ℤ).toNat).length = 400
     ∧ (cellSeq (20 / 20 : ℤ).toNat).length = 1)
  ∧ (generatePixel stacksPalette 400 97 = pixelFold stacksPalette (cellSeq (400 / 20 : ℤ).toNat) 97
     ∧ (cellSeq (400 / 20 : ℤ).toNat).length = (400 / 20 : ℤ).toNat ^ 2
     ∧ ((pixelCell stacksPalette 0 0 97).1 = [] ↔ ¬ (next 97).1 > 0.4)
     ∧ ((pixelCell stacksPalette 0 0 97).2 =
         if (next 97).1 > 0.4 then (next (next (next 97).2).2).2 else (next 97).2)
     ∧ (∃ op, 0.6 ≤ op ∧ op < 1 ∧
         (pixelCell stacksPalette 0 0 97).1 =
           if (next 97).1 > 0.4 then
             [Prim.pixelRect (20 * 0) (20 * 0) 20
                (stacksPalette.getD (idx (next (next 97).2).1 stacksPalette.length) "") op]
           else []))
  ∧ (generatePixel stacksPalette 20 97 = pixelFold stacksPalette (cellSeq (20 / 20 : ℤ).toNat) 97) :=
  ⟨⟨by decide, by decide, by decide, by decide⟩,
   ⟨by decide, by decide⟩,
   c8_pixel_grid stacksPalette 400 97 0 0 97 (by decide) (by decide),
   (c8_pixel_grid stacksPalette 20 97 0 0 97 (by decide) (by decide)).1⟩

end NftForge
